import Mathlib

/-!
Verification development for the xen-orchestra VHD core:
the merge/flatten engine (`packages/vhd-lib/src/merge.js`) and the sparse
image builder / streaming converter (`packages/xo-vmdk-to-vhd/src/vhd-write.js`).

Buffers are modelled as `List Nat` (byte lists), JS numbers as `Nat`
(with `Int` where the source can go negative), fallible code as `Except`.
-/

/-! ## Byte-list helpers (JS `Buffer` primitives) -/

/-- JS `buffer.slice(start, stop)` for non-negative in-range arguments:
the bytes in positions `[start, stop)`, clamped to the buffer length. -/
def listSlice (l : List Nat) (start stop : Nat) : List Nat :=
  (l.take stop).drop start

/-- JS `src.copy(dst, offset)` (also the core of `writeUInt32BE`): overwrite
`dst` starting at `offset` with the bytes of `src`, clamped so the result
keeps `dst`'s length; positions outside the copied range are unchanged. -/
def listCopyInto (dst src : List Nat) (offset : Nat) : List Nat :=
  dst.take offset ++ src.take (dst.length - offset) ++ dst.drop (offset + src.length)

/-- JS `buf.writeUInt32BE(value, offset)`: stamp `value` as four big-endian
bytes at `offset` (the source only calls it with values `< 2^32`). -/
def writeUInt32BE (buf : List Nat) (value offset : Nat) : List Nat :=
  listCopyInto buf
    [value / 2 ^ 24 % 256, value / 2 ^ 16 % 256, value / 2 ^ 8 % 256, value % 256]
    offset

/-- JS `buf.readUInt32BE(offset)`: read four bytes big-endian. -/
def readUInt32BE (buf : List Nat) (offset : Nat) : Nat :=
  buf.getD offset 0 * 2 ^ 24 + buf.getD (offset + 1) 0 * 2 ^ 16 +
    buf.getD (offset + 2) 0 * 2 ^ 8 + buf.getD (offset + 3) 0

/-! ## Constants

`VHD_SECTOR_SIZE`, the disk-type constants and `fuFooter.size` come from
`@xen-orchestra/vhd-lib`, which is outside `src/`.  Modelled from the spec:
sector size is 512 bytes throughout; the footer is a 512-byte structure;
disk types fixed / dynamic / differencing use the VHD on-disk values 2 / 3 / 4. -/

def VHD_SECTOR_SIZE : Nat := 512

def HARD_DISK_TYPE_FIXED : Nat := 2

def HARD_DISK_TYPE_DYNAMIC : Nat := 3

def HARD_DISK_TYPE_DIFFERENCING : Nat := 4

/-- Modelled from the spec: `fuFooter.size`, the byte size of the packed
footer structure (512). -/
def fuFooterSize : Nat := 512

def footerCookie : String := "conectix"

def creatorApp : String := "xo  "

-- it looks like everybody is using Wi2k
def WIN2K_OS : Nat := 0x5769326b

def headerCookie : String := "cxsparse"

/-! ## `vhd-write.js`: `Block` and `SparseExtent` -/

/-- A VHD block buffer: sector-allocation bitmap followed by data, the whole
buffer rounded up to a whole sector (`class Block`).  The JS object's single
`buffer` is `bitmapBuffer ++ dataBuffer`. -/
structure Block where
  bitmapBuffer : List Nat
  dataBuffer : List Nat
deriving Repr, DecidableEq

/-- `new Block(blockSize)`: zero-filled buffer of
`ceil((blockSize + bitmapSize) / VHD_SECTOR_SIZE) * VHD_SECTOR_SIZE` bytes,
with the first `bitmapSize = blockSize / VHD_SECTOR_SIZE / 8` bytes
(the bitmap) filled with `0xff`. -/
def Block.new (blockSize : Nat) : Block :=
  let bitmapSize := blockSize / VHD_SECTOR_SIZE / 8
  let bufferSize :=
    (blockSize + bitmapSize + (VHD_SECTOR_SIZE - 1)) / VHD_SECTOR_SIZE * VHD_SECTOR_SIZE
  { bitmapBuffer := List.replicate bitmapSize 0xff
    dataBuffer := List.replicate (bufferSize - bitmapSize) 0 }

/-- `Block.writeData(buffer, offset)`: `buffer.copy(this.dataBuffer, offset)`. -/
def Block.writeData (b : Block) (buffer : List Nat) (offset : Nat) : Block :=
  { b with dataBuffer := listCopyInto b.dataBuffer buffer offset }

/-- `this.buffer.length` of a block. -/
def Block.bufferLength (b : Block) : Nat :=
  b.bitmapBuffer.length + b.dataBuffer.length

/-- `class SparseExtent`: BAT byte buffer, sparse block array (`entries`),
block size, and the sector offset at which block payloads begin.
`entries` is the JS sparse array `table.entries` (absent index = `undefined`). -/
structure SparseExtent where
  entryCount : Nat
  batBuffer : List Nat
  entries : Nat → Option Block
  blockSize : Nat
  startOffset : Nat

/-- `SparseExtent._writeBlock(blockBuffer, tableIndex, offset)`: throws
`invalid block geometry` when the sub-buffer would overrun the block,
otherwise lazily allocates the block and copies the bytes in. -/
def SparseExtent.writeBlock (s : SparseExtent) (blockBuffer : List Nat)
    (tableIndex offset : Nat) : Except String SparseExtent :=
  if blockBuffer.length + offset > s.blockSize then
    .error "invalid block geometry"
  else
    let entry :=
      match s.entries tableIndex with
      | none => Block.new s.blockSize
      | some e => e
    let entry := entry.writeData blockBuffer offset
    .ok { s with entries := fun j => if j = tableIndex then some entry else s.entries j }

/-- The per-touched-block body of `SparseExtent.writeBuffer`'s `for` loop.
`blockDelta = offset - i * blockSize` in the source; the branch condition
`blockDelta > 0` is `offset > i * blockSize`, and the JS `slice` bounds
`-blockDelta` and `(i + 1) * blockSize - offset` are the natural-number
values below on every index the loop visits. -/
def writeBufferLoop (buffer : List Nat) (offset : Nat) :
    SparseExtent → List Nat → Except String SparseExtent
  | s, [] => .ok s
  | s, i :: rest => do
    let step ←
      if offset > i * s.blockSize then
        s.writeBlock (listSlice buffer 0 ((i + 1) * s.blockSize - offset)) i
          (offset - i * s.blockSize)
      else
        s.writeBlock (listSlice buffer (i * s.blockSize - offset)
          ((i + 1) * s.blockSize - offset)) i 0
    writeBufferLoop buffer offset step rest

/-- `SparseExtent.writeBuffer(buffer, offset)`: split the buffer over the
touched block range `[floor(offset/blockSize), ceil((offset+len)/blockSize))`
and write each piece (`Math.ceil` on naturals is `(x + bs - 1) / bs`). -/
def SparseExtent.writeBuffer (s : SparseExtent) (buffer : List Nat) (offset : Nat) :
    Except String SparseExtent :=
  let startBlock := offset / s.blockSize
  let endBlock := (offset + buffer.length + (s.blockSize - 1)) / s.blockSize
  writeBufferLoop buffer offset s (List.range' startBlock (endBlock - startBlock))

/-! ## `vhd-write.js`: footer / header / table construction and `writeFile`

`fuFooter.pack`, `fuHeader.pack` and `checksumStruct` live in
`@xen-orchestra/vhd-lib`, outside `src/`; the footer and header are therefore
modelled at field level (the record of values handed to `pack`), not as raw
bytes.  `computeGeometryForSize` is likewise external: its result is passed in
as data (`geomtry`, `actualSize`). -/

structure DiskGeometry where
  cylinders : Nat
  heads : Nat
  sectorsPerTrackCylinder : Nat
deriving Repr, DecidableEq

/-- The fields of the packed VHD footer (`fuFooter`).  `dataOffset` is
`none` when the source passes `undefined` (the fixed-disk stream footer);
`uuid` is left `none` by `createFooter` (the source never sets it there). -/
structure FooterFields where
  cookie : String
  features : Nat
  fileFormatVersion : Nat
  dataOffset : Option Nat
  timestamp : Nat
  creatorApplication : String
  creatorHostOs : Nat
  originalSize : Nat
  currentSize : Nat
  diskGeometry : DiskGeometry
  diskType : Nat
  uuid : Option Nat
deriving Repr, DecidableEq

/-- The fields of the packed dynamic-disk header (`fuHeader`). -/
structure HeaderFields where
  cookie : String
  dataOffsetUnused : List Nat
  tableOffset : Nat
  headerVersion : Nat
  maxTableEntries : Nat
  blockSize : Nat
  checksum : Nat
deriving Repr, DecidableEq

/-- `createFooter(size, timestamp, geometry, diskType, dataOffset)`
(`checksumStruct` is external byte-level packing, not modelled). -/
def createFooter (size timestamp : Nat) (geometry : DiskGeometry) (diskType : Nat)
    (dataOffset : Option Nat) : FooterFields :=
  { cookie := footerCookie
    features := 2
    fileFormatVersion := 0x00010000
    dataOffset := dataOffset
    timestamp := timestamp
    creatorApplication := creatorApp
    creatorHostOs := WIN2K_OS
    originalSize := size
    currentSize := size
    diskGeometry := geometry
    diskType := diskType
    uuid := none }

/-- `createDynamicDiskHeader(tableEntries, blockSize)`. -/
def createDynamicDiskHeader (tableEntries blockSize : Nat) : HeaderFields :=
  { cookie := headerCookie
    dataOffsetUnused := List.replicate 8 0xff
    tableOffset := VHD_SECTOR_SIZE * 3
    headerVersion := 0x00010000
    maxTableEntries := tableEntries
    blockSize := blockSize
    checksum := 0 }

/-- The object returned by `createEmptyTable`. -/
structure VhdTable where
  entryCount : Nat
  buffer : List Nat
  entries : Nat → Option Block

/-- `createEmptyTable(dataSize, blockSize)`: `blockCount = ceil(dataSize /
blockSize)` entries, a `0xff`-filled buffer of `ceil(blockCount * 4 /
VHD_SECTOR_SIZE)` whole sectors, and an empty sparse entry array. -/
def createEmptyTable (dataSize blockSize : Nat) : VhdTable :=
  let blockCount := (dataSize + (blockSize - 1)) / blockSize
  let tableSizeSectors := (blockCount * 4 + (VHD_SECTOR_SIZE - 1)) / VHD_SECTOR_SIZE
  { entryCount := blockCount
    buffer := List.replicate (tableSizeSectors * VHD_SECTOR_SIZE) 0xff
    entries := fun _ => none }

/-- The `SparseExtent(dataSize, blockSize, startOffset)` constructor:
`startOffset` becomes `(startOffset + table.buffer.length) / VHD_SECTOR_SIZE`. -/
def SparseExtent.create (dataSize blockSize startOffset : Nat) : SparseExtent :=
  let table := createEmptyTable dataSize blockSize
  { entryCount := table.entryCount
    batBuffer := table.buffer
    entries := table.entries
    blockSize := blockSize
    startOffset := (startOffset + table.buffer.length) / VHD_SECTOR_SIZE }

/-- One unit of output written by `writeFile` / `writeOnFile` (one `write`
call).  Footer and header chunks carry their field records, the BAT its byte
buffer, blocks their buffers. -/
inductive FileChunk where
  | footer (f : FooterFields)
  | header (h : HeaderFields)
  | bat (bytes : List Nat)
  | block (b : Block)
deriving Repr, DecidableEq

/-- The BAT-stamping walk at the top of `SparseExtent.writeOnFile`: for each
index in the list (ascending), if the block is allocated, stamp the running
sector cursor big-endian at byte `i * 4` and advance the cursor by
`block.buffer.length / VHD_SECTOR_SIZE`. -/
def stampLoop (s : SparseExtent) : List Nat → List Nat × Nat → List Nat × Nat
  | [], st => st
  | i :: rest, (buf, cur) =>
    match s.entries i with
    | some b =>
        stampLoop s rest
          (writeUInt32BE buf cur (i * 4), cur + b.bufferLength / VHD_SECTOR_SIZE)
    | none => stampLoop s rest (buf, cur)

/-- `SparseExtent.writeOnFile(file)`: stamp the BAT, write it, then write
each allocated block in ascending index order. -/
def SparseExtent.writeOnFile (s : SparseExtent) : List FileChunk :=
  let stamped := (stampLoop s (List.range s.entryCount) (s.batBuffer, s.startOffset)).1
  FileChunk.bat stamped ::
    (List.range s.entryCount).filterMap fun i => (s.entries i).map FileChunk.block

/-- `class VHDFile` (the field name `geomtry` keeps the source's spelling).
`computeGeometryForSize` is external; its result arrives as `geomtry` and
`actualSize`. -/
structure VHDFile where
  geomtry : DiskGeometry
  actualSize : Nat
  timestamp : Nat
  blockSize : Nat
  sparseFile : SparseExtent

/-- The `VHDFile(virtualSize, timestamp)` constructor body: block size
`0x00200000`, sparse extent over `geomtry.actualSize` starting at sector 3. -/
def VHDFile.create (geomtry : DiskGeometry) (actualSize timestamp : Nat) : VHDFile :=
  { geomtry := geomtry
    actualSize := actualSize
    timestamp := timestamp
    blockSize := 0x00200000
    sparseFile := SparseExtent.create actualSize 0x00200000 (VHD_SECTOR_SIZE * 3) }

/-- `VHDFile.writeBuffer(buffer, offset)` delegates to the sparse extent. -/
def VHDFile.writeBuffer (v : VHDFile) (buffer : List Nat) (offset : Nat) :
    Except String VHDFile :=
  (v.sparseFile.writeBuffer buffer offset).map fun s => { v with sparseFile := s }

/-- `VHDFile.writeFile(fileName)`: footer, dynamic-disk header, then the
sparse extent (BAT + blocks), then the same footer buffer again. -/
def VHDFile.writeFile (v : VHDFile) : List FileChunk :=
  let fileFooter :=
    createFooter v.actualSize v.timestamp v.geomtry HARD_DISK_TYPE_DYNAMIC
      (some fuFooterSize)
  let diskHeader := createDynamicDiskHeader v.sparseFile.entryCount v.blockSize
  FileChunk.footer fileFooter :: FileChunk.header diskHeader ::
    (v.sparseFile.writeOnFile ++ [FileChunk.footer fileFooter])

/-! ## `vhd-write.js`: `ReadableRawVHDStream`

The stream's chunk queue (`currentFile`) holds lazy thunks that
`pushFileUntilFull` materializes and pushes in FIFO order; every queued chunk
is eventually pushed, so the model concatenates materialized chunks directly.
The `'error'` events the stream emits (always via `process.nextTick`, never a
synchronous throw — the `_read` `.catch` also reroutes thrown rejections
there) are modelled as the `errors` channel of the state; that every
state-transition function below is a total Lean function returning a state is
the model of "never throws synchronously". -/

/-- One VMDK grain as handed over by the parser: `{ lbaBytes, grain }`. -/
structure SparseGrain where
  lbaBytes : Nat
  grain : List Nat
deriving Repr, DecidableEq

/-- JS `Buffer.alloc(n)`: a zero-filled buffer, a `RangeError` when `n` is
negative (surfacing, in the source, through the stream's error channel via
the `_read` catch). -/
def bufferAlloc (n : Int) : Except String (List Nat) :=
  if n < 0 then .error "invalid Buffer size"
  else .ok (List.replicate n.toNat 0)

/-- `ReadableRawVHDStream.filePadding(paddingLength)`: no chunks for zero
padding; otherwise `floor(paddingLength / 1 MiB)` full 1-MiB zero chunks
(none when the count is not positive, as in JS a `for` loop with a negative
bound) and a final `Buffer.alloc(paddingLength % chunkSize)` chunk, where `/`
is JS `Math.floor` (`Int.fdiv`) and `%` is the JS sign-of-dividend remainder
(`Int.tmod`). -/
def filePadding (paddingLength : Int) : Except String (List (List Nat)) :=
  if paddingLength = 0 then .ok []
  else
    let chunkSize : Int := 1024 * 1024
    let chunkCount := Int.fdiv paddingLength chunkSize
    let fullChunks := List.replicate chunkCount.toNat (List.replicate chunkSize.toNat 0)
    (bufferAlloc (Int.tmod paddingLength chunkSize)).map fun lastChunk =>
      fullChunks ++ [lastChunk]

/-- The observable state of a `ReadableRawVHDStream`: the cursor
(`this.position`), the data bytes pushed so far, the footer once pushed, the
end-of-stream flag (`this.done`, set by the `null` sentinel), and the
`'error'` events emitted so far. -/
structure StreamState where
  position : Nat
  bytes : List Nat
  footer : Option FooterFields
  done : Bool
  errors : List String
deriving Repr, DecidableEq

/-- The error message emitted for an out-of-order grain. -/
def blockOrderErrorMessage : String :=
  "This VMDK file does not have its blocks in the correct order"

/-- The non-EOF branch of `pushNextBlock`: `paddingLength = offset -
this.position`; when it is negative, emit the out-of-order error
asynchronously; queue the padding chunks (whose materialization throws for
negative padding — rerouted to the error channel) and the grain, and advance
the cursor to `offset + buffer.length` (the source sets `this.position`
before the queued thunks run, so the cursor advances even on the throwing
path, on which the failing padding thunk precedes the grain data). -/
def pushGrain (st : StreamState) (g : SparseGrain) : StreamState :=
  let offset := g.lbaBytes
  let paddingLength : Int := (offset : Int) - (st.position : Int)
  let errs :=
    if paddingLength < 0 then st.errors ++ [blockOrderErrorMessage] else st.errors
  match filePadding paddingLength with
  | .ok padding =>
      { st with
        errors := errs
        bytes := st.bytes ++ padding.flatten ++ g.grain
        position := offset + g.grain.length }
  | .error e =>
      { st with
        errors := errs ++ [e]
        position := offset + g.grain.length }

/-- The EOF branch of `pushNextBlock` (`next === null`): zero-fill the
remaining gap up to the declared size, push the fixed-disk footer, then the
`null` sentinel that sets `this.done`. -/
def pushEnd (st : StreamState) (size : Nat) (footer : FooterFields) : StreamState :=
  let paddingLength : Int := (size : Int) - (st.position : Int)
  match filePadding paddingLength with
  | .ok padding =>
      { st with
        bytes := st.bytes ++ padding.flatten
        footer := some footer
        done := true }
  | .error e => { st with errors := st.errors ++ [e] }

/-- A whole conversion run: the constructor builds a fixed-disk footer for
the declared size (`computeGeometryForSize` external, geometry passed in;
`createFooter` called without a data offset), then every grain is processed
in order followed by end-of-input. -/
def runVMDKStream (size timestamp : Nat) (geometry : DiskGeometry)
    (grains : List SparseGrain) : StreamState :=
  let footer := createFooter size timestamp geometry HARD_DISK_TYPE_FIXED none
  let init : StreamState :=
    { position := 0, bytes := [], footer := none, done := false, errors := [] }
  pushEnd (grains.foldl pushGrain init) size footer

/-! ## `merge.js`: the merge engine

`Vhd` (`vhd.js`) is outside `src/`; merge consumes it only through the
handle contract (spec section 6).  The contract operations are modelled as an
environment of fallible oracles: each operation either fails with an error or
returns its result.  `coalesceBlock` — modelled from the spec: copies the
child's block (bitmap + data) into the parent at the given index and reports
a written byte count — takes its reported count from the environment.
The `try`/`finally` nesting of the source is made explicit, including JS
semantics for a `finally` whose close itself throws (its error supersedes). -/

def DISK_TYPE_DIFFERENCING : Nat := 4

def DISK_TYPE_DYNAMIC : Nat := 3

/-- What `readHeaderAndFooter` populates on a `Vhd`: `header.blockSize`,
`header.maxTableEntries` and the footer fields. -/
structure VhdInfo where
  blockSize : Nat
  maxTableEntries : Nat
  footer : FooterFields

/-- The environment of one `merge` call: the outcome of every handle-contract
operation it may invoke, the child's block-presence predicate (what
`containsBlock` answers after the BAT read) and the parent's block store. -/
structure MergeEnv where
  parentOpen : Except String Unit
  childOpen : Except String Unit
  parentReadHF : Except String VhdInfo
  childReadHF : Except String VhdInfo
  parentReadBat : Except String Unit
  childReadBat : Except String Unit
  ensureBat : Except String Unit
  childContains : Nat → Bool
  childBlocks : Nat → Option (List Nat)
  coalesce : Nat → Except String Nat
  writeFooterRes : Except String Unit
  closeChildRes : Except String Unit
  closeParentRes : Except String Unit
  parentBlocks : Nat → Option (List Nat)

/-- The operations `merge` invokes, in invocation order. -/
inductive MergeEvent where
  | openParent
  | openChild
  | readParentHF
  | readChildHF
  | readParentBat
  | readChildBat
  | ensureBat (n : Nat)
  | coalesce (i : Nat)
  | writeFooter
  | closeChild
  | closeParent
deriving Repr, DecidableEq

/-- What one `merge` call did: the events in order, the returned byte count
or the propagated error, the parent's block store afterwards, and the footer
written by `writeFooter` (if it was reached and succeeded). -/
structure MergeOutcome where
  events : List MergeEvent
  result : Except String Nat
  parentBlocks : Nat → Option (List Nat)
  footerOnDisk : Option FooterFields

/-- The `for (blockId = 0; ...)` loop: for each index, if the child contains
the block, invoke `coalesceBlock` (copying the child's block into the parent
— modelled from the spec) and accumulate the reported byte count; stop at the
first failure. -/
def coalesceLoop (env : MergeEnv) :
    List Nat → (Nat → Option (List Nat)) →
    List MergeEvent × (Nat → Option (List Nat)) × Except String Nat
  | [], blocks => ([], blocks, .ok 0)
  | i :: rest, blocks =>
    if env.childContains i then
      match env.coalesce i with
      | .error e => ([.coalesce i], blocks, .error e)
      | .ok n =>
          let blocks' := fun j => if j = i then env.childBlocks i else blocks j
          let (ev, b, r) := coalesceLoop env rest blocks'
          (.coalesce i :: ev, b, r.map fun m => n + m)
    else
      coalesceLoop env rest blocks

/-- The body of the inner `try` (everything between the child open and the
child `finally`): header/footer reads, the three assertions, BAT reads,
`ensureBatSize`, the coalesce loop, the footer field copy and `writeFooter`. -/
def mergeBody (env : MergeEnv) :
    List MergeEvent × Except String Nat × (Nat → Option (List Nat)) × Option FooterFields :=
  let ev0 : List MergeEvent := [.readParentHF, .readChildHF]
  match env.parentReadHF, env.childReadHF with
  | .error e, _ => (ev0, .error e, env.parentBlocks, none)
  | .ok _, .error e => (ev0, .error e, env.parentBlocks, none)
  | .ok p, .ok c =>
    if ¬(c.blockSize = p.blockSize) then
      (ev0, .error "assertion failed: blockSize", env.parentBlocks, none)
    else if ¬(p.footer.diskType = DISK_TYPE_DIFFERENCING ∨
        p.footer.diskType = DISK_TYPE_DYNAMIC) then
      (ev0, .error "assertion failed: parent diskType", env.parentBlocks, none)
    else if ¬(c.footer.diskType = DISK_TYPE_DIFFERENCING) then
      (ev0, .error "assertion failed: child diskType", env.parentBlocks, none)
    else
      let ev1 := ev0 ++ [.readParentBat, .readChildBat]
      match env.parentReadBat, env.childReadBat with
      | .error e, _ => (ev1, .error e, env.parentBlocks, none)
      | .ok _, .error e => (ev1, .error e, env.parentBlocks, none)
      | .ok _, .ok _ =>
        let ev2 := ev1 ++ [.ensureBat c.maxTableEntries]
        match env.ensureBat with
        | .error e => (ev2, .error e, env.parentBlocks, none)
        | .ok _ =>
          let (evL, blocks, res) :=
            coalesceLoop env (List.range c.maxTableEntries) env.parentBlocks
          let ev3 := ev2 ++ evL
          match res with
          | .error e => (ev3, .error e, blocks, none)
          | .ok mergedDataSize =>
            let newFooter :=
              { p.footer with
                currentSize := c.footer.currentSize
                diskGeometry := c.footer.diskGeometry
                originalSize := c.footer.originalSize
                timestamp := c.footer.timestamp
                uuid := c.footer.uuid }
            let ev4 := ev3 ++ [.writeFooter]
            match env.writeFooterRes with
            | .error e => (ev4, .error e, blocks, none)
            | .ok _ => (ev4, .ok mergedDataSize, blocks, some newFooter)

/-- JS `try r finally close`: a failing close supersedes the body's outcome. -/
def finallyClose (r : Except String Nat) (closeRes : Except String Unit) :
    Except String Nat :=
  match closeRes with
  | .ok _ => r
  | .error e => .error e

/-- `merge(parentHandler, parentPath, childHandler, childPath)`:
open parent (`r+`), then inside `try`/`finally` open child (`r`), run the
body, and close child then parent on every exit path. -/
def merge (env : MergeEnv) : MergeOutcome :=
  match env.parentOpen with
  | .error e =>
      { events := [.openParent], result := .error e
        parentBlocks := env.parentBlocks, footerOnDisk := none }
  | .ok _ =>
    match env.childOpen with
    | .error e =>
        { events := [.openParent, .openChild, .closeParent]
          result := finallyClose (.error e) env.closeParentRes
          parentBlocks := env.parentBlocks, footerOnDisk := none }
    | .ok _ =>
      let (ev, res, blocks, fod) := mergeBody env
      { events := [.openParent, .openChild] ++ ev ++ [.closeChild, .closeParent]
        result := finallyClose (finallyClose res env.closeChildRes) env.closeParentRes
        parentBlocks := blocks
        footerOnDisk := fod }

/-! ## The merge concurrency gate

`merge.js` wraps `merge` in `concurrency(2)` from `limit-concurrency-decorator`,
an external dependency whose code is not in this repository.  Modelled from
the spec: a process-wide counting admission gate — at most two calls run at
once, further calls queue FIFO until a slot frees. -/

/-- The limit the source passes to the decorator: `concurrency(2)`. -/
def mergeConcurrencyLimit : Nat := 2

/-- Modelled from the spec: the admission gate's state — the calls currently
running and the FIFO queue of waiting calls (identified by arbitrary ids). -/
structure GateState where
  running : List Nat
  queue : List Nat
deriving Repr, DecidableEq

/-- The two external events driving the gate: a new merge call arrives, or a
running call completes. -/
inductive GateEvent where
  | arrive (id : Nat)
  | finish (id : Nat)
deriving Repr, DecidableEq

/-- Modelled from the spec: one gate transition.  An arriving call is
admitted immediately when a slot is free, otherwise appended to the queue;
a completing call frees its slot and the queue's head (oldest waiter) is
admitted if a slot is then free. -/
def gateStep (s : GateState) : GateEvent → GateState
  | .arrive id =>
    if s.running.length < mergeConcurrencyLimit then
      { s with running := s.running ++ [id] }
    else
      { s with queue := s.queue ++ [id] }
  | .finish id =>
    let running := s.running.erase id
    if running.length < mergeConcurrencyLimit then
      match s.queue with
      | [] => { running := running, queue := [] }
      | q :: qs => { running := running ++ [q], queue := qs }
    else
      { running := running, queue := s.queue }

/-- The gate state after a sequence of events, starting idle. -/
def gateRun (events : List GateEvent) : GateState :=
  events.foldl gateStep { running := [], queue := [] }

/-- The block value `_writeBlock` stores for a touched index `j` of a
`writeBuffer(buffer, offset)` call: the existing block (or a freshly
allocated one when the index was empty) with the per-block sub-buffer
`buffer.slice(j*bs - offset, (j+1)*bs - offset)` copied in at the in-block
offset (`offset - j*bs` on the first touched block when `offset` is not
block-aligned, `0` otherwise). -/
def writeStep (bs : Nat) (buffer : List Nat) (offset j : Nat) (old : Option Block) :
    Block :=
  (old.getD (Block.new bs)).writeData
    (listSlice buffer (j * bs - offset) ((j + 1) * bs - offset))
    (if offset > j * bs then offset - j * bs else 0)

/-- The sector-rounded size of the block at index `i` (`0` if unallocated):
`block.buffer.length / VHD_SECTOR_SIZE`, the amount `writeOnFile`'s stamping
walk advances its cursor by. -/
def blockSectors (s : SparseExtent) (i : Nat) : Nat :=
  match s.entries i with
  | some b => b.bufferLength / VHD_SECTOR_SIZE
  | none => 0

/-- Total sector-rounded size of the allocated blocks with indices in
`[a, a + n)`. -/
def allocSizeSum (s : SparseExtent) (a n : Nat) : Nat :=
  ((List.range' a n).map (blockSectors s)).sum

/-- Whether a merge event is a `coalesceBlock` invocation. -/
def MergeEvent.isCoalesce : MergeEvent → Bool
  | .coalesce _ => true
  | _ => false

/-! ## Concrete fixtures used by witness theorems -/

def testParentFooter : FooterFields :=
  { cookie := "conectix", features := 2, fileFormatVersion := 0x00010000
    dataOffset := some 512, timestamp := 111, creatorApplication := "xo  "
    creatorHostOs := 5, originalSize := 1000, currentSize := 1000
    diskGeometry := ⟨1, 2, 3⟩, diskType := DISK_TYPE_DYNAMIC, uuid := some 42 }

def testChildFooter : FooterFields :=
  { cookie := "conectix", features := 2, fileFormatVersion := 0x00010000
    dataOffset := some 512, timestamp := 222, creatorApplication := "xo  "
    creatorHostOs := 5, originalSize := 2000, currentSize := 2000
    diskGeometry := ⟨4, 5, 6⟩, diskType := DISK_TYPE_DIFFERENCING, uuid := some 43 }

/-- A merge environment where every operation succeeds, the preconditions
hold, and the child contains exactly block 0 (out of 2). -/
def testEnvOk : MergeEnv :=
  { parentOpen := .ok (), childOpen := .ok ()
    parentReadHF := .ok ⟨4096, 4, testParentFooter⟩
    childReadHF := .ok ⟨4096, 2, testChildFooter⟩
    parentReadBat := .ok (), childReadBat := .ok ()
    ensureBat := .ok ()
    childContains := fun i => i == 0
    childBlocks := fun i => if i = 0 then some [1, 2, 3] else none
    coalesce := fun i => .ok (7 * (i + 1))
    writeFooterRes := .ok (), closeChildRes := .ok (), closeParentRes := .ok ()
    parentBlocks := fun _ => none }

/-- A merge environment identical to `testEnvOk` except that the child's
disk type is dynamic instead of differencing (precondition violation). -/
def testEnvBadChild : MergeEnv :=
  { testEnvOk with
    childReadHF := .ok ⟨4096, 2, { testChildFooter with diskType := DISK_TYPE_DYNAMIC }⟩ }

/-- A small sparse extent (2 entries, block size 1024) with no blocks
allocated, for the `writeBuffer` witnesses. -/
def testExtent : SparseExtent := SparseExtent.create 2048 1024 (VHD_SECTOR_SIZE * 3)

/-- A small `VHDFile` around `testExtent` for the `writeFile` witnesses
(geometry passed in, `computeGeometryForSize` being external). -/
def testVhdFile : VHDFile :=
  { geomtry := ⟨1, 2, 3⟩, actualSize := 2048, timestamp := 99, blockSize := 1024
    sparseFile := testExtent }
theorem listSlice_length (l : List Nat) (start stop : Nat) :
    (listSlice l start stop).length = min stop l.length - start := by
  simp [listSlice]

theorem listCopyInto_length (dst src : List Nat) (offset : Nat) :
    (listCopyInto dst src offset).length = dst.length := by
  simp only [listCopyInto, List.length_append, List.length_take, List.length_drop]
  omega

theorem listCopyInto_getElem? (dst src : List Nat) (offset k : Nat) :
    (listCopyInto dst src offset)[k]? =
      if offset ≤ k ∧ k < offset + src.length ∧ k < dst.length then
        src[k - offset]?
      else
        dst[k]? := by
  unfold listCopyInto
  rw [List.getElem?_append, List.getElem?_append]
  simp only [List.length_append, List.length_take]
  by_cases h1 : k < min offset dst.length + min (dst.length - offset) src.length
  · rw [if_pos h1]
    by_cases h2 : k < min offset dst.length
    · rw [if_pos h2, List.getElem?_take_of_lt (by omega), if_neg (by omega)]
    · rw [if_neg h2]
      have hko : min offset dst.length = offset := by omega
      have hlt : k - min offset dst.length < dst.length - offset := by omega
      rw [List.getElem?_take_of_lt hlt, if_pos (by omega), hko]
  · rw [if_neg h1, List.getElem?_drop]
    by_cases h3 : k < dst.length
    · rw [if_neg (by omega)]
      congr 1
      omega
    · have e1 : dst[offset + src.length +
          (k - (min offset dst.length + min (dst.length - offset) src.length))]? =
          (none : Option Nat) := List.getElem?_eq_none (by omega)
      have e2 : dst[k]? = (none : Option Nat) := List.getElem?_eq_none (by omega)
      rw [if_neg (by omega), e1, e2]

/-! ## Claim C4: the streaming converter on `[(0,"AA"),(4,"BB")]`, capacity 8 -/

/-- C4, counterexample: for grains `[(0,"AA"),(4,"BB")]` (bytes 65/66) and
declared capacity 8, the emitted data bytes (everything before the trailing
footer) are NOT `AA\0\0BB`: on end-of-input the converter first zero-fills
the remaining gap up to the declared capacity, so two further zero bytes
follow `BB`. -/
theorem C4_counterexample :
    (runVMDKStream 8 0 ⟨1, 1, 1⟩ [⟨0, [65, 65]⟩, ⟨4, [66, 66]⟩]).bytes ≠
      [65, 65, 0, 0, 66, 66] := by
  decide

/-- C4, amended: for the input grain sequence `[(0,"AA"),(4,"BB")]` with
declared capacity 8, the emitted byte stream excluding the trailing
fixed-disk footer equals `AA\0\0BB\0\0` — the gap between cursor and each
grain offset zero-filled, and the tail zero-filled up to the declared
capacity — and the stream ends (no error, `done` set) with a fixed-disk
footer for the declared size. -/
theorem C4_stream_output (timestamp : Nat) (geometry : DiskGeometry) :
    (runVMDKStream 8 timestamp geometry [⟨0, [65, 65]⟩, ⟨4, [66, 66]⟩]).bytes =
        [65, 65, 0, 0, 66, 66, 0, 0] ∧
      (runVMDKStream 8 timestamp geometry [⟨0, [65, 65]⟩, ⟨4, [66, 66]⟩]).footer =
        some (createFooter 8 timestamp geometry HARD_DISK_TYPE_FIXED none) ∧
      (createFooter 8 timestamp geometry HARD_DISK_TYPE_FIXED none).diskType =
        HARD_DISK_TYPE_FIXED ∧
      (createFooter 8 timestamp geometry HARD_DISK_TYPE_FIXED none).currentSize = 8 ∧
      (createFooter 8 timestamp geometry HARD_DISK_TYPE_FIXED none).originalSize = 8 ∧
      (runVMDKStream 8 timestamp geometry [⟨0, [65, 65]⟩, ⟨4, [66, 66]⟩]).done = true ∧
      (runVMDKStream 8 timestamp geometry [⟨0, [65, 65]⟩, ⟨4, [66, 66]⟩]).errors = [] :=
  ⟨rfl, rfl, rfl, rfl, rfl, rfl, rfl⟩

/-! ## Claim C5: out-of-order grains surface on the error channel -/

/-- C5: whenever the converter receives a grain whose absolute byte offset is
less than the current cursor, the out-of-order error message is emitted on
the stream's error channel (appended right after the previously emitted
errors; the `tail` covers any follow-on error from materializing the
negative padding, which the source also reroutes to the error channel).
That `pushGrain` is a total function into `StreamState` — never an
exception — models "never throws synchronously from the receiving call". -/
theorem C5_out_of_order_grain (st : StreamState) (g : SparseGrain)
    (h : g.lbaBytes < st.position) :
    ∃ tail, (pushGrain st g).errors = st.errors ++ [blockOrderErrorMessage] ++ tail := by
  have hneg : ((g.lbaBytes : Int) - (st.position : Int)) < 0 := by omega
  cases hfp : filePadding ((g.lbaBytes : Int) - (st.position : Int)) with
  | ok padding =>
      refine ⟨[], ?_⟩
      simp [pushGrain, hfp, hneg]
  | error e =>
      refine ⟨[e], ?_⟩
      simp [pushGrain, hfp, hneg]

/-- C5 witness: a concrete out-of-order grain (offset 2 against cursor 5). -/
theorem C5_out_of_order_grain_witness :
    ((⟨2, [9]⟩ : SparseGrain).lbaBytes <
        (⟨5, [], none, false, []⟩ : StreamState).position) ∧
      ∃ tail,
        (pushGrain ⟨5, [], none, false, []⟩ ⟨2, [9]⟩).errors =
          (⟨5, [], none, false, []⟩ : StreamState).errors ++
            [blockOrderErrorMessage] ++ tail :=
  ⟨by decide, C5_out_of_order_grain ⟨5, [], none, false, []⟩ ⟨2, [9]⟩ (by decide)⟩

/-! ## Merge engine lemmas -/

theorem coalesceLoop_spec (env : MergeEnv) (bytes : Nat → Nat) :
    ∀ (l : List Nat) (blocks : Nat → Option (List Nat)),
      (∀ i ∈ l, env.childContains i = true → env.coalesce i = .ok (bytes i)) →
      coalesceLoop env l blocks =
        ((l.filter fun i => env.childContains i).map MergeEvent.coalesce,
          fun j => if env.childContains j = true ∧ j ∈ l then env.childBlocks j else blocks j,
          .ok ((l.filter fun i => env.childContains i).map bytes).sum)
  | [], blocks, _ => by
    refine Prod.ext rfl (Prod.ext ?_ rfl)
    funext j
    simp [coalesceLoop]
  | i :: rest, blocks, h => by
    by_cases hc : env.childContains i = true
    · have hco : env.coalesce i = .ok (bytes i) := h i (by simp) hc
      have ih := coalesceLoop_spec env bytes rest
        (fun j => if j = i then env.childBlocks i else blocks j)
        (fun j hj hcj => h j (by simp [hj]) hcj)
      simp only [coalesceLoop, hc, if_pos, hco, ih]
      refine Prod.ext ?_ (Prod.ext ?_ ?_)
      · simp [hc]
      · funext j
        by_cases hji : j = i
        · subst hji
          by_cases hjr : j ∈ rest <;> simp [hc, hjr]
        · by_cases hcj : env.childContains j = true <;> simp [hji, hcj]
      · simp [hc, Except.map]
    · have ih := coalesceLoop_spec env bytes rest blocks
        (fun j hj hcj => h j (by simp [hj]) hcj)
      have hcb : env.childContains i = false := by
        simpa using hc
      simp only [coalesceLoop, hcb, Bool.false_eq_true, if_neg, ih]
      refine Prod.ext ?_ (Prod.ext ?_ ?_)
      · simp [hcb]
      · funext j
        by_cases hji : j = i
        · subst hji
          simp [hcb]
        · simp [hji]
      · simp [hcb]

/-- Full characterization of a successful merge: with every operation
succeeding and the three assertions holding, `merge` performs the reads, the
BAT grow, the coalesce of exactly the child-present block indices in
ascending order, and the footer rewrite, and returns the accumulated count. -/
theorem merge_success_spec (env : MergeEnv) (p c : VhdInfo) (bytes : Nat → Nat)
    (hpo : env.parentOpen = .ok ()) (hco : env.childOpen = .ok ())
    (hph : env.parentReadHF = .ok p) (hch : env.childReadHF = .ok c)
    (hpb : env.parentReadBat = .ok ()) (hcb : env.childReadBat = .ok ())
    (heb : env.ensureBat = .ok ()) (hwf : env.writeFooterRes = .ok ())
    (hcc : env.closeChildRes = .ok ()) (hcp : env.closeParentRes = .ok ())
    (hbs : c.blockSize = p.blockSize)
    (hpt : p.footer.diskType = DISK_TYPE_DIFFERENCING ∨
      p.footer.diskType = DISK_TYPE_DYNAMIC)
    (hct : c.footer.diskType = DISK_TYPE_DIFFERENCING)
    (hcoal : ∀ i, i < c.maxTableEntries → env.childContains i = true →
      env.coalesce i = .ok (bytes i)) :
    merge env =
      { events :=
          [.openParent, .openChild, .readParentHF, .readChildHF, .readParentBat,
            .readChildBat, .ensureBat c.maxTableEntries] ++
          ((List.range c.maxTableEntries).filter fun i =>
            env.childContains i).map MergeEvent.coalesce ++
          [.writeFooter, .closeChild, .closeParent]
        result := .ok ((((List.range c.maxTableEntries).filter fun i =>
          env.childContains i).map bytes).sum)
        parentBlocks := fun j =>
          if env.childContains j = true ∧ j ∈ List.range c.maxTableEntries then
            env.childBlocks j
          else env.parentBlocks j
        footerOnDisk := some
          { p.footer with
            currentSize := c.footer.currentSize
            diskGeometry := c.footer.diskGeometry
            originalSize := c.footer.originalSize
            timestamp := c.footer.timestamp
            uuid := c.footer.uuid } } := by
  have hloop := coalesceLoop_spec env bytes (List.range c.maxTableEntries)
    env.parentBlocks (fun i hi hci => hcoal i (List.mem_range.mp hi) hci)
  have hbody : mergeBody env =
      ([.readParentHF, .readChildHF, .readParentBat, .readChildBat,
          .ensureBat c.maxTableEntries] ++
        ((List.range c.maxTableEntries).filter fun i =>
          env.childContains i).map MergeEvent.coalesce ++ [.writeFooter],
        .ok ((((List.range c.maxTableEntries).filter fun i =>
          env.childContains i).map bytes).sum),
        fun j =>
          if env.childContains j = true ∧ j ∈ List.range c.maxTableEntries then
            env.childBlocks j
          else env.parentBlocks j,
        some
          { p.footer with
            currentSize := c.footer.currentSize
            diskGeometry := c.footer.diskGeometry
            originalSize := c.footer.originalSize
            timestamp := c.footer.timestamp
            uuid := c.footer.uuid }) := by
    simp only [mergeBody, hph, hch]
    rw [if_neg (not_not_intro hbs), if_neg (not_not_intro hpt),
      if_neg (not_not_intro hct)]
    simp only [hpb, hcb, heb, hloop, hwf]
    simp [List.append_assoc]
  simp only [merge, hpo, hco, hbody, finallyClose, hcc, hcp]
  simp [List.append_assoc]

/-! ## Claim C1: the merge loop -/

/-- C1: for every valid merge call (matching block sizes, parent dynamic or
differencing, child differencing, every operation succeeding), merge walks
block indices `0` to the child's `maxTableEntries` in ascending order,
invokes `coalesceBlock` exactly for the indices the child contains (the
coalesce events are, in order, the ascending child-present indices), leaves
parent blocks untouched at indices the child does not contain, and returns
the sum of the byte counts the `coalesceBlock` calls reported — `0` when the
child has no allocated blocks. -/
theorem C1_merge_loop (env : MergeEnv) (p c : VhdInfo) (bytes : Nat → Nat)
    (hpo : env.parentOpen = .ok ()) (hco : env.childOpen = .ok ())
    (hph : env.parentReadHF = .ok p) (hch : env.childReadHF = .ok c)
    (hpb : env.parentReadBat = .ok ()) (hcb : env.childReadBat = .ok ())
    (heb : env.ensureBat = .ok ()) (hwf : env.writeFooterRes = .ok ())
    (hcc : env.closeChildRes = .ok ()) (hcp : env.closeParentRes = .ok ())
    (hbs : c.blockSize = p.blockSize)
    (hpt : p.footer.diskType = DISK_TYPE_DIFFERENCING ∨
      p.footer.diskType = DISK_TYPE_DYNAMIC)
    (hct : c.footer.diskType = DISK_TYPE_DIFFERENCING)
    (hcoal : ∀ i, i < c.maxTableEntries → env.childContains i = true →
      env.coalesce i = .ok (bytes i)) :
    (merge env).result = .ok ((((List.range c.maxTableEntries).filter fun i =>
        env.childContains i).map bytes).sum) ∧
      (merge env).events.filter MergeEvent.isCoalesce =
        ((List.range c.maxTableEntries).filter fun i =>
          env.childContains i).map MergeEvent.coalesce ∧
      (∀ j, env.childContains j = false →
        (merge env).parentBlocks j = env.parentBlocks j) ∧
      ((∀ i, i < c.maxTableEntries → env.childContains i = false) →
        (merge env).result = .ok 0) := by
  rw [merge_success_spec env p c bytes hpo hco hph hch hpb hcb heb hwf hcc hcp
    hbs hpt hct hcoal]
  refine ⟨rfl, ?_, ?_, ?_⟩
  · rw [List.filter_append, List.filter_append]
    have h1 : List.filter MergeEvent.isCoalesce
        [.openParent, .openChild, .readParentHF, .readChildHF, .readParentBat,
          .readChildBat, .ensureBat c.maxTableEntries] = [] := rfl
    have h2 : List.filter MergeEvent.isCoalesce
        [.writeFooter, .closeChild, .closeParent] = [] := rfl
    have h3 : (((List.range c.maxTableEntries).filter fun i =>
        env.childContains i).map MergeEvent.coalesce).filter MergeEvent.isCoalesce =
        ((List.range c.maxTableEntries).filter fun i =>
          env.childContains i).map MergeEvent.coalesce := by
      apply List.filter_eq_self.mpr
      intro a ha
      obtain ⟨i, _, rfl⟩ := List.mem_map.mp ha
      rfl
    rw [h1, h2, h3, List.nil_append, List.append_nil]
  · intro j hj
    simp [hj]
  · intro h
    have hfil : (List.range c.maxTableEntries).filter
        (fun i => env.childContains i) = [] := by
      apply List.filter_eq_nil_iff.mpr
      intro a ha
      simp [h a (List.mem_range.mp ha)]
    simp [hfil]

/-- C1 witness: in `testEnvOk` (child entries 2, block 0 present, coalesce
reporting `7 * (i + 1)` bytes) the conclusions hold concretely. -/
theorem C1_merge_loop_witness :
    testEnvOk.childContains 0 = true ∧
      ((merge testEnvOk).result = .ok ((((List.range 2).filter fun i =>
          testEnvOk.childContains i).map fun i => 7 * (i + 1)).sum) ∧
        (merge testEnvOk).events.filter MergeEvent.isCoalesce =
          ((List.range 2).filter fun i =>
            testEnvOk.childContains i).map MergeEvent.coalesce ∧
        (∀ j, testEnvOk.childContains j = false →
          (merge testEnvOk).parentBlocks j = testEnvOk.parentBlocks j) ∧
        ((∀ i, i < 2 → testEnvOk.childContains i = false) →
          (merge testEnvOk).result = .ok 0)) :=
  ⟨by decide,
    C1_merge_loop testEnvOk ⟨4096, 4, testParentFooter⟩ ⟨4096, 2, testChildFooter⟩
      (fun i => 7 * (i + 1)) rfl rfl rfl rfl rfl rfl rfl rfl rfl rfl rfl
      (Or.inr rfl) rfl (fun _ _ _ => rfl)⟩

/-! ## Claim C7: footer metadata after a successful merge -/

/-- C7: after a successful merge the footer written to disk carries the
child's pre-merge `currentSize`, `diskGeometry`, `originalSize`, `timestamp`
and `uuid`, keeps every other parent footer field unchanged, and is indeed
written (`footerOnDisk` is populated by the `writeFooter` call). -/
theorem C7_merge_footer (env : MergeEnv) (p c : VhdInfo) (bytes : Nat → Nat)
    (hpo : env.parentOpen = .ok ()) (hco : env.childOpen = .ok ())
    (hph : env.parentReadHF = .ok p) (hch : env.childReadHF = .ok c)
    (hpb : env.parentReadBat = .ok ()) (hcb : env.childReadBat = .ok ())
    (heb : env.ensureBat = .ok ()) (hwf : env.writeFooterRes = .ok ())
    (hcc : env.closeChildRes = .ok ()) (hcp : env.closeParentRes = .ok ())
    (hbs : c.blockSize = p.blockSize)
    (hpt : p.footer.diskType = DISK_TYPE_DIFFERENCING ∨
      p.footer.diskType = DISK_TYPE_DYNAMIC)
    (hct : c.footer.diskType = DISK_TYPE_DIFFERENCING)
    (hcoal : ∀ i, i < c.maxTableEntries → env.childContains i = true →
      env.coalesce i = .ok (bytes i)) :
    ∃ f, (merge env).footerOnDisk = some f ∧
      f.currentSize = c.footer.currentSize ∧
      f.diskGeometry = c.footer.diskGeometry ∧
      f.originalSize = c.footer.originalSize ∧
      f.timestamp = c.footer.timestamp ∧
      f.uuid = c.footer.uuid ∧
      f.cookie = p.footer.cookie ∧
      f.features = p.footer.features ∧
      f.fileFormatVersion = p.footer.fileFormatVersion ∧
      f.dataOffset = p.footer.dataOffset ∧
      f.creatorApplication = p.footer.creatorApplication ∧
      f.creatorHostOs = p.footer.creatorHostOs ∧
      f.diskType = p.footer.diskType := by
  rw [merge_success_spec env p c bytes hpo hco hph hch hpb hcb heb hwf hcc hcp
    hbs hpt hct hcoal]
  exact ⟨_, rfl, rfl, rfl, rfl, rfl, rfl, rfl, rfl, rfl, rfl, rfl, rfl, rfl⟩

/-- C7 witness: the concrete successful merge environment. -/
theorem C7_merge_footer_witness :
    testChildFooter.diskType = DISK_TYPE_DIFFERENCING ∧
      ∃ f, (merge testEnvOk).footerOnDisk = some f ∧
        f.currentSize = testChildFooter.currentSize ∧
        f.diskGeometry = testChildFooter.diskGeometry ∧
        f.originalSize = testChildFooter.originalSize ∧
        f.timestamp = testChildFooter.timestamp ∧
        f.uuid = testChildFooter.uuid ∧
        f.cookie = testParentFooter.cookie ∧
        f.features = testParentFooter.features ∧
        f.fileFormatVersion = testParentFooter.fileFormatVersion ∧
        f.dataOffset = testParentFooter.dataOffset ∧
        f.creatorApplication = testParentFooter.creatorApplication ∧
        f.creatorHostOs = testParentFooter.creatorHostOs ∧
        f.diskType = testParentFooter.diskType :=
  ⟨rfl,
    C7_merge_footer testEnvOk ⟨4096, 4, testParentFooter⟩ ⟨4096, 2, testChildFooter⟩
      (fun i => 7 * (i + 1)) rfl rfl rfl rfl rfl rfl rfl rfl rfl rfl rfl
      (Or.inr rfl) rfl (fun _ _ _ => rfl)⟩

/-! ## Claim C6: precondition failures abort before any mutation -/

/-- C6: when the child's block size differs from the parent's, or the
parent's disk type is neither dynamic nor differencing, or the child's disk
type is not differencing, merge fails (an error result), and at that point
no mutation of the parent has happened: no `ensureBatSize`, no
`coalesceBlock` and no `writeFooter` was invoked, the parent's block store
is untouched and no footer was written. -/
theorem C6_merge_preconditions (env : MergeEnv) (p c : VhdInfo)
    (hpo : env.parentOpen = .ok ()) (hco : env.childOpen = .ok ())
    (hph : env.parentReadHF = .ok p) (hch : env.childReadHF = .ok c)
    (hviol : ¬(c.blockSize = p.blockSize) ∨
      ¬(p.footer.diskType = DISK_TYPE_DIFFERENCING ∨
        p.footer.diskType = DISK_TYPE_DYNAMIC) ∨
      ¬(c.footer.diskType = DISK_TYPE_DIFFERENCING)) :
    (∃ e, (merge env).result = .error e) ∧
      (∀ n, MergeEvent.ensureBat n ∉ (merge env).events) ∧
      (∀ i, MergeEvent.coalesce i ∉ (merge env).events) ∧
      MergeEvent.writeFooter ∉ (merge env).events ∧
      (merge env).parentBlocks = env.parentBlocks ∧
      (merge env).footerOnDisk = none := by
  have hbody : ∃ msg, mergeBody env =
      ([.readParentHF, .readChildHF], .error msg, env.parentBlocks, none) := by
    by_cases h1 : c.blockSize = p.blockSize
    · by_cases h2 : p.footer.diskType = DISK_TYPE_DIFFERENCING ∨
          p.footer.diskType = DISK_TYPE_DYNAMIC
      · have h3 : ¬(c.footer.diskType = DISK_TYPE_DIFFERENCING) := by tauto
        refine ⟨"assertion failed: child diskType", ?_⟩
        simp only [mergeBody, hph, hch]
        rw [if_neg (not_not_intro h1), if_neg (not_not_intro h2), if_pos h3]
      · refine ⟨"assertion failed: parent diskType", ?_⟩
        simp only [mergeBody, hph, hch]
        rw [if_neg (not_not_intro h1), if_pos h2]
    · refine ⟨"assertion failed: blockSize", ?_⟩
      simp only [mergeBody, hph, hch]
      rw [if_pos h1]
  obtain ⟨msg, hbody⟩ := hbody
  have hmerge : merge env =
      { events := [.openParent, .openChild, .readParentHF, .readChildHF,
          .closeChild, .closeParent]
        result := finallyClose (finallyClose (.error msg) env.closeChildRes)
          env.closeParentRes
        parentBlocks := env.parentBlocks
        footerOnDisk := none } := by
    simp only [merge, hpo, hco, hbody]
    simp
  rw [hmerge]
  refine ⟨?_, by simp, by simp, by simp, rfl, rfl⟩
  cases hcp2 : env.closeParentRes with
  | error e => exact ⟨e, by simp [finallyClose, hcp2]⟩
  | ok _ =>
    cases hcc2 : env.closeChildRes with
    | error e => exact ⟨e, by simp [finallyClose, hcp2, hcc2]⟩
    | ok _ => exact ⟨msg, by simp [finallyClose, hcp2, hcc2]⟩

/-- C6 witness: a merge whose child is dynamic instead of differencing. -/
theorem C6_merge_preconditions_witness :
    ¬({ testChildFooter with diskType := DISK_TYPE_DYNAMIC }.diskType =
        DISK_TYPE_DIFFERENCING) ∧
      ((∃ e, (merge testEnvBadChild).result = .error e) ∧
        (∀ n, MergeEvent.ensureBat n ∉ (merge testEnvBadChild).events) ∧
        (∀ i, MergeEvent.coalesce i ∉ (merge testEnvBadChild).events) ∧
        MergeEvent.writeFooter ∉ (merge testEnvBadChild).events ∧
        (merge testEnvBadChild).parentBlocks = testEnvBadChild.parentBlocks ∧
        (merge testEnvBadChild).footerOnDisk = none) :=
  ⟨by decide,
    C6_merge_preconditions testEnvBadChild ⟨4096, 4, testParentFooter⟩
      ⟨4096, 2, { testChildFooter with diskType := DISK_TYPE_DYNAMIC }⟩
      rfl rfl rfl rfl (Or.inr (Or.inr (by decide)))⟩

/-! ## Claim C8: handles are closed on every exit path -/

/-- C8: on every exit path of merge — the environment (and with it every
success/failure combination of each step) is arbitrary — each file handle
merge opened is closed before the call completes: when the parent open
succeeded, `closeFile(parentFd)` is invoked, and when the child open also
succeeded, `closeFile(childFd)` is invoked as well. -/
theorem C8_merge_closes_handles (env : MergeEnv) :
    (env.parentOpen = .ok () → MergeEvent.closeParent ∈ (merge env).events) ∧
      (env.parentOpen = .ok () → env.childOpen = .ok () →
        MergeEvent.closeChild ∈ (merge env).events ∧
          MergeEvent.closeParent ∈ (merge env).events) := by
  constructor
  · intro hpo
    cases hco : env.childOpen with
    | error e => simp [merge, hpo, hco]
    | ok u =>
      cases u
      rcases hmb : mergeBody env with ⟨ev, res, blocks, fod⟩
      simp [merge, hpo, hco, hmb]
  · intro hpo hco
    rcases hmb : mergeBody env with ⟨ev, res, blocks, fod⟩
    simp [merge, hpo, hco, hmb]

/-- C8 witness: the all-success environment; both closes appear. -/
theorem C8_merge_closes_handles_witness :
    MergeEvent.closeParent ∈ (merge testEnvOk).events ∧
      MergeEvent.closeChild ∈ (merge testEnvOk).events :=
  ⟨(C8_merge_closes_handles testEnvOk).1 rfl,
    ((C8_merge_closes_handles testEnvOk).2 rfl rfl).1⟩

/-! ## Claim C9: the merge concurrency gate -/

theorem gateStep_preserves_limit (s : GateState) (e : GateEvent)
    (h : s.running.length ≤ mergeConcurrencyLimit) :
    (gateStep s e).running.length ≤ mergeConcurrencyLimit := by
  cases e with
  | arrive id =>
    simp only [gateStep]
    by_cases hl : s.running.length < mergeConcurrencyLimit
    · simp only [hl, if_pos, List.length_append, List.length_cons, List.length_nil]
      omega
    · simp [hl, h]
  | finish id =>
    simp only [gateStep]
    have he : (s.running.erase id).length ≤ s.running.length :=
      List.length_erase_le id s.running
    by_cases hl : (s.running.erase id).length < mergeConcurrencyLimit
    · cases hq : s.queue with
      | nil => simp only [hl, if_pos, hq]; omega
      | cons q qs =>
          simp only [hl, if_pos, hq, List.length_append, List.length_cons,
            List.length_nil]
          omega
    · simp only [hl, if_neg, ite_false]
      omega

theorem gateRun_running_le (events : List GateEvent) :
    ∀ s : GateState, s.running.length ≤ mergeConcurrencyLimit →
      (events.foldl gateStep s).running.length ≤ mergeConcurrencyLimit := by
  induction events with
  | nil => intro s h; simpa using h
  | cons e rest ih =>
      intro s h
      exact ih (gateStep s e) (gateStep_preserves_limit s e h)

/-- C9: at most two merges run concurrently process-wide, and the queue is
FIFO.  Modelled from the spec (the `concurrency(2)` decorator is an external
dependency): for every event sequence the set of running calls never exceeds
the limit of 2 — a third simultaneous call never begins work while two run —
a call arriving at a full gate is appended to the wait queue's tail, and when
a completion frees a slot the queue's head (the oldest waiter) is the call
admitted. -/
theorem C9_merge_concurrency_gate (events : List GateEvent) :
    (gateRun events).running.length ≤ mergeConcurrencyLimit ∧
      (∀ s : GateState, ∀ id, mergeConcurrencyLimit ≤ s.running.length →
        gateStep s (.arrive id) = { s with queue := s.queue ++ [id] }) ∧
      (∀ s : GateState, ∀ id q qs, s.queue = q :: qs →
        (s.running.erase id).length < mergeConcurrencyLimit →
        gateStep s (.finish id) =
          { running := s.running.erase id ++ [q], queue := qs }) := by
  refine ⟨gateRun_running_le events ⟨[], []⟩ (by simp), ?_, ?_⟩
  · intro s id hfull
    simp only [gateStep]
    rw [if_neg (by omega)]
  · intro s id q qs hq hfree
    simp only [gateStep]
    rw [if_pos hfree, hq]

/-- C9 witness: three simultaneous arrivals never exceed two running, and a
completion at a full gate admits the queue's head. -/
theorem C9_merge_concurrency_gate_witness :
    (gateRun [.arrive 1, .arrive 2, .arrive 3]).running.length ≤
        mergeConcurrencyLimit ∧
      gateStep ⟨[1, 2], [3]⟩ (.finish 1) = ⟨[2, 3], []⟩ :=
  ⟨(C9_merge_concurrency_gate [.arrive 1, .arrive 2, .arrive 3]).1,
    by
      rw [(C9_merge_concurrency_gate []).2.2 ⟨[1, 2], [3]⟩ 1 3 [] rfl (by decide)]
      decide⟩

/-! ## `writeBuffer` lemmas -/

theorem writeBufferLoop_spec (buffer : List Nat) (offset bs : Nat) (hbs : 0 < bs) :
    ∀ (n a : Nat) (s : SparseExtent), s.blockSize = bs → offset / bs ≤ a →
      ∃ s', writeBufferLoop buffer offset s (List.range' a n) = .ok s' ∧
        s'.entryCount = s.entryCount ∧ s'.batBuffer = s.batBuffer ∧
        s'.blockSize = bs ∧ s'.startOffset = s.startOffset ∧
        ∀ j, s'.entries j =
          if a ≤ j ∧ j < a + n then some (writeStep bs buffer offset j (s.entries j))
          else s.entries j := by
  intro n
  induction n with
  | zero =>
      intro a s hsb ha
      refine ⟨s, by simp [writeBufferLoop], rfl, rfl, hsb, rfl, fun j => ?_⟩
      rw [if_neg (by omega)]
  | succ n ih =>
      intro a s hsb ha
      have hdm := Nat.div_add_mod offset bs
      have hmod : offset % bs < bs := Nat.mod_lt offset hbs
      have hmul : offset / bs * bs ≤ a * bs := Nat.mul_le_mul_right bs ha
      have hcomm : bs * (offset / bs) = offset / bs * bs := Nat.mul_comm bs _
      have hsucc : (a + 1) * bs = a * bs + bs := by ring
      have haux1 : offset < (a + 1) * bs := by omega
      have hlen := listSlice_length buffer (a * bs - offset) ((a + 1) * bs - offset)
      have hlen0 := listSlice_length buffer 0 ((a + 1) * bs - offset)
      rw [List.range'_succ]
      by_cases hgt : offset > a * s.blockSize
      · have hgt' : offset > a * bs := by rwa [hsb] at hgt
        have hz : a * bs - offset = 0 := Nat.sub_eq_zero_of_le (le_of_lt hgt')
        have hok : s.writeBlock (listSlice buffer 0 ((a + 1) * s.blockSize - offset)) a
            (offset - a * s.blockSize) =
            .ok { s with entries := fun j => (if j = a then some (writeStep bs buffer offset a (s.entries a)) else s.entries j) } := by
          rw [SparseExtent.writeBlock, if_neg (by rw [hsb]; omega), hsb]
          simp only [writeStep, gt_iff_lt, hz, if_pos hgt']
          cases s.entries a <;> rfl
        obtain ⟨s', hloop, hec, hbb, hsb', hso, hent⟩ :=
          ih (a + 1)
            { s with entries := fun j => (if j = a then some (writeStep bs buffer offset a (s.entries a)) else s.entries j) }
            hsb (by omega)
        refine ⟨s', ?_, hec, hbb, hsb', hso, fun j => ?_⟩
        · rw [writeBufferLoop, if_pos hgt, hok]
          simpa using hloop
        · rw [hent j]
          by_cases hj : j = a
          · subst hj
            rw [if_neg (by omega), if_pos (by omega)]
            simp
          · by_cases hin : a + 1 ≤ j ∧ j < a + 1 + n
            · rw [if_pos hin, if_pos (by omega)]
              simp [hj]
            · rw [if_neg hin, if_neg (by omega)]
              simp [hj]
      · have hle : offset ≤ a * bs := by rw [hsb] at hgt; omega
        have hok : s.writeBlock (listSlice buffer (a * s.blockSize - offset)
            ((a + 1) * s.blockSize - offset)) a 0 =
            .ok { s with entries := fun j => (if j = a then some (writeStep bs buffer offset a (s.entries a)) else s.entries j) } := by
          have hngt : ¬offset > a * bs := by rw [hsb] at hgt; omega
          rw [SparseExtent.writeBlock, if_neg (by rw [hsb]; omega), hsb]
          simp only [writeStep, gt_iff_lt, if_neg hngt]
          cases s.entries a <;> rfl
        obtain ⟨s', hloop, hec, hbb, hsb', hso, hent⟩ :=
          ih (a + 1)
            { s with entries := fun j => (if j = a then some (writeStep bs buffer offset a (s.entries a)) else s.entries j) }
            hsb (by omega)
        refine ⟨s', ?_, hec, hbb, hsb', hso, fun j => ?_⟩
        · rw [writeBufferLoop, if_neg hgt, hok]
          simpa using hloop
        · rw [hent j]
          by_cases hj : j = a
          · subst hj
            rw [if_neg (by omega), if_pos (by omega)]
            simp
          · by_cases hin : a + 1 ≤ j ∧ j < a + 1 + n
            · rw [if_pos hin, if_pos (by omega)]
              simp [hj]
            · rw [if_neg hin, if_neg (by omega)]
              simp [hj]

/-! ## Claim C2: `writeBuffer` touches exactly the computed block range -/

/-- C2: for every buffer and absolute offset (block size positive),
`writeBuffer` succeeds and touches exactly the block indices in
`[floor(offset/blockSize), ceil((offset+len)/blockSize))`: indices outside
the range keep their entries, each touched index `j` ends up holding its
sub-buffer written at the in-block offset — `offset mod blockSize` for the
first touched block, `0` for every subsequent one — into the existing block
or a lazily allocated fresh block whose sector bitmap is pre-filled with
`0xff`; and `_writeBlock` throws the structural `invalid block geometry`
error exactly when a sub-buffer's length plus its in-block offset would
exceed the configured block size. -/
theorem C2_writeBuffer (s : SparseExtent) (buffer : List Nat) (offset : Nat)
    (hbs : 0 < s.blockSize) :
    (∃ s', s.writeBuffer buffer offset = .ok s' ∧
      (∀ j, j < offset / s.blockSize ∨
          (offset + buffer.length + (s.blockSize - 1)) / s.blockSize ≤ j →
        s'.entries j = s.entries j) ∧
      (∀ j, offset / s.blockSize ≤ j →
          j < (offset + buffer.length + (s.blockSize - 1)) / s.blockSize →
        s'.entries j =
          some (writeStep s.blockSize buffer offset j (s.entries j)))) ∧
      ((if offset > offset / s.blockSize * s.blockSize then
          offset - offset / s.blockSize * s.blockSize
        else 0) = offset % s.blockSize) ∧
      (∀ j, offset / s.blockSize < j →
        (if offset > j * s.blockSize then offset - j * s.blockSize else 0) = 0) ∧
      (Block.new s.blockSize).bitmapBuffer =
        List.replicate (s.blockSize / VHD_SECTOR_SIZE / 8) 0xff ∧
      (∀ bb ti o, (∃ e, s.writeBlock bb ti o = .error e) ↔
        s.blockSize < bb.length + o) := by
  have hdm := Nat.div_add_mod offset s.blockSize
  have hmod : offset % s.blockSize < s.blockSize := Nat.mod_lt offset hbs
  have hcomm : s.blockSize * (offset / s.blockSize) =
      offset / s.blockSize * s.blockSize := Nat.mul_comm _ _
  have heb : offset / s.blockSize ≤
      (offset + buffer.length + (s.blockSize - 1)) / s.blockSize :=
    Nat.div_le_div_right (by omega)
  refine ⟨?_, ?_, ?_, rfl, ?_⟩
  · obtain ⟨s', hloop, _, _, _, _, hent⟩ :=
      writeBufferLoop_spec buffer offset s.blockSize hbs
        ((offset + buffer.length + (s.blockSize - 1)) / s.blockSize -
          offset / s.blockSize)
        (offset / s.blockSize) s rfl (le_refl _)
    refine ⟨s', hloop, fun j hj => ?_, fun j hj1 hj2 => ?_⟩
    · rw [hent j, if_neg (by omega)]
    · rw [hent j, if_pos (by omega)]
  · by_cases hgt : offset > offset / s.blockSize * s.blockSize
    · rw [if_pos hgt]
      omega
    · rw [if_neg hgt]
      omega
  · intro j hj
    have hmul : (offset / s.blockSize + 1) * s.blockSize ≤ j * s.blockSize :=
      Nat.mul_le_mul_right _ (by omega)
    have hsucc : (offset / s.blockSize + 1) * s.blockSize =
        offset / s.blockSize * s.blockSize + s.blockSize := by ring
    rw [if_neg (by omega)]
  · intro bb ti o
    constructor
    · rintro ⟨e, he⟩
      by_contra hnot
      rw [SparseExtent.writeBlock, if_neg (by omega)] at he
      exact Except.noConfusion he
    · intro h
      exact ⟨"invalid block geometry", by rw [SparseExtent.writeBlock, if_pos (by omega)]⟩

/-- C2 witness: writing 3 bytes at offset 1023 into `testExtent`
(block size 1024) touches blocks 0 and 1. -/
theorem C2_writeBuffer_witness :
    0 < testExtent.blockSize ∧
      ((∃ s', testExtent.writeBuffer [7, 8, 9] 1023 = .ok s' ∧
        (∀ j, j < 1023 / testExtent.blockSize ∨
            (1023 + [7, 8, 9].length + (testExtent.blockSize - 1)) /
              testExtent.blockSize ≤ j →
          s'.entries j = testExtent.entries j) ∧
        (∀ j, 1023 / testExtent.blockSize ≤ j →
            j < (1023 + [7, 8, 9].length + (testExtent.blockSize - 1)) /
              testExtent.blockSize →
          s'.entries j =
            some (writeStep testExtent.blockSize [7, 8, 9] 1023 j
              (testExtent.entries j)))) ∧
        ((if 1023 > 1023 / testExtent.blockSize * testExtent.blockSize then
            1023 - 1023 / testExtent.blockSize * testExtent.blockSize
          else 0) = 1023 % testExtent.blockSize) ∧
        (∀ j, 1023 / testExtent.blockSize < j →
          (if 1023 > j * testExtent.blockSize then 1023 - j * testExtent.blockSize
            else 0) = 0) ∧
        (Block.new testExtent.blockSize).bitmapBuffer =
          List.replicate (testExtent.blockSize / VHD_SECTOR_SIZE / 8) 0xff ∧
        (∀ bb ti o, (∃ e, testExtent.writeBlock bb ti o = .error e) ↔
          testExtent.blockSize < bb.length + o)) :=
  ⟨by decide, C2_writeBuffer testExtent [7, 8, 9] 1023 (by decide)⟩

/-! ## BAT stamping lemmas -/

theorem writeUInt32BE_length (buf : List Nat) (v off : Nat) :
    (writeUInt32BE buf v off).length = buf.length := by
  rw [writeUInt32BE, listCopyInto_length]

theorem writeUInt32BE_getElem?_outside (buf : List Nat) (v off k : Nat)
    (h : ¬(off ≤ k ∧ k < off + 4)) :
    (writeUInt32BE buf v off)[k]? = buf[k]? := by
  rw [writeUInt32BE, listCopyInto_getElem?, if_neg (by simp; omega)]

theorem readUInt32BE_congr (buf₁ buf₂ : List Nat) (off : Nat)
    (h : ∀ t, t < 4 → buf₁[off + t]? = buf₂[off + t]?) :
    readUInt32BE buf₁ off = readUInt32BE buf₂ off := by
  have h0 := h 0 (by omega)
  have h1 := h 1 (by omega)
  have h2 := h 2 (by omega)
  have h3 := h 3 (by omega)
  rw [Nat.add_zero] at h0
  rw [readUInt32BE, readUInt32BE, List.getD_eq_getElem?_getD,
    List.getD_eq_getElem?_getD, List.getD_eq_getElem?_getD,
    List.getD_eq_getElem?_getD, List.getD_eq_getElem?_getD,
    List.getD_eq_getElem?_getD, List.getD_eq_getElem?_getD,
    List.getD_eq_getElem?_getD, h0, h1, h2, h3]

theorem readUInt32BE_writeUInt32BE (buf : List Nat) (v off : Nat)
    (hv : v < 2 ^ 32) (hlen : off + 4 ≤ buf.length) :
    readUInt32BE (writeUInt32BE buf v off) off = v := by
  have e0 : (writeUInt32BE buf v off)[off]? = some (v / 2 ^ 24 % 256) := by
    rw [writeUInt32BE, listCopyInto_getElem?, if_pos (by simp; omega),
      Nat.sub_self]
    rfl
  have e1 : (writeUInt32BE buf v off)[off + 1]? = some (v / 2 ^ 16 % 256) := by
    rw [writeUInt32BE, listCopyInto_getElem?, if_pos (by simp; omega),
      Nat.add_sub_cancel_left]
    rfl
  have e2 : (writeUInt32BE buf v off)[off + 2]? = some (v / 2 ^ 8 % 256) := by
    rw [writeUInt32BE, listCopyInto_getElem?, if_pos (by simp; omega),
      Nat.add_sub_cancel_left]
    rfl
  have e3 : (writeUInt32BE buf v off)[off + 3]? = some (v % 256) := by
    rw [writeUInt32BE, listCopyInto_getElem?, if_pos (by simp; omega),
      Nat.add_sub_cancel_left]
    rfl
  rw [readUInt32BE, List.getD_eq_getElem?_getD, List.getD_eq_getElem?_getD,
    List.getD_eq_getElem?_getD, List.getD_eq_getElem?_getD, e0, e1, e2, e3]
  simp only [Option.getD_some]
  omega

theorem readUInt32BE_all_ff (buf : List Nat) (off : Nat)
    (hff : ∀ k, k < buf.length → buf.getD k 0 = 0xff)
    (hlen : off + 4 ≤ buf.length) :
    readUInt32BE buf off = 0xFFFFFFFF := by
  rw [readUInt32BE, hff off (by omega), hff (off + 1) (by omega),
    hff (off + 2) (by omega), hff (off + 3) (by omega)]
  norm_num

theorem stampLoop_length (s : SparseExtent) :
    ∀ (l : List Nat) (buf : List Nat) (cur : Nat),
      (stampLoop s l (buf, cur)).1.length = buf.length
  | [], _, _ => rfl
  | i :: rest, buf, cur => by
    rw [stampLoop]
    cases s.entries i with
    | none => exact stampLoop_length s rest buf cur
    | some b =>
        rw [stampLoop_length s rest _ _, writeUInt32BE_length]

theorem stampLoop_untouched (s : SparseExtent) :
    ∀ (l : List Nat) (buf : List Nat) (cur k : Nat),
      (∀ j ∈ l, (s.entries j).isSome = true → ¬(j * 4 ≤ k ∧ k < j * 4 + 4)) →
      (stampLoop s l (buf, cur)).1[k]? = buf[k]?
  | [], _, _, _, _ => rfl
  | i :: rest, buf, cur, k, h => by
    rw [stampLoop]
    cases hsi : s.entries i with
    | none =>
        exact stampLoop_untouched s rest buf cur k
          fun j hj => h j (List.mem_cons_of_mem i hj)
    | some b =>
        rw [stampLoop_untouched s rest _ _ k
          fun j hj => h j (List.mem_cons_of_mem i hj)]
        exact writeUInt32BE_getElem?_outside buf cur (i * 4) k
          (h i (List.mem_cons_self i rest) (by simp [hsi]))

theorem allocSizeSum_zero (s : SparseExtent) (a : Nat) : allocSizeSum s a 0 = 0 := rfl

theorem allocSizeSum_succ (s : SparseExtent) (a n : Nat) :
    allocSizeSum s a (n + 1) = blockSectors s a + allocSizeSum s (a + 1) n := by
  simp [allocSizeSum, List.range'_succ]

theorem allocSizeSum_add (s : SparseExtent) (a m k : Nat) :
    allocSizeSum s a (m + k) = allocSizeSum s a m + allocSizeSum s (a + m) k := by
  rw [allocSizeSum, allocSizeSum, allocSizeSum, Nat.add_comm m k,
    ← List.range'_append_1, List.map_append, List.sum_append]

theorem stampLoop_read (s : SparseExtent) (m : Nat) (b : Block)
    (hm : s.entries m = some b) :
    ∀ (n a : Nat) (buf : List Nat) (cur : Nat), a ≤ m → m < a + n →
      m * 4 + 4 ≤ buf.length →
      cur + allocSizeSum s a (m - a) < 2 ^ 32 →
      readUInt32BE (stampLoop s (List.range' a n) (buf, cur)).1 (m * 4) =
        cur + allocSizeSum s a (m - a) := by
  intro n
  induction n with
  | zero => intro a buf cur ha hmn _ _; omega
  | succ n ih =>
      intro a buf cur ha hmn hbuf hbound
      rw [List.range'_succ, stampLoop]
      cases hsa : s.entries a with
      | some b0 =>
          by_cases hma : m = a
          · subst hma
            have hcongr : readUInt32BE (stampLoop s (List.range' (m + 1) n)
                (writeUInt32BE buf cur (m * 4),
                  cur + b0.bufferLength / VHD_SECTOR_SIZE)).1 (m * 4) =
                readUInt32BE (writeUInt32BE buf cur (m * 4)) (m * 4) := by
              apply readUInt32BE_congr
              intro t ht
              apply stampLoop_untouched
              intro j hj _
              have hj1 := (List.mem_range'_1.mp hj).1
              omega
            rw [Nat.sub_self, allocSizeSum_zero] at hbound ⊢
            rw [hcongr, readUInt32BE_writeUInt32BE buf cur (m * 4) (by omega)
              (by omega)]
            omega
          · have hsum : allocSizeSum s a (m - a) =
                b0.bufferLength / VHD_SECTOR_SIZE +
                  allocSizeSum s (a + 1) (m - (a + 1)) := by
              have h1 : m - a = (m - (a + 1)) + 1 := by omega
              rw [h1, allocSizeSum_succ, blockSectors, hsa]
            rw [ih (a + 1) (writeUInt32BE buf cur (a * 4))
              (cur + b0.bufferLength / VHD_SECTOR_SIZE) (by omega) (by omega)
              (by rw [writeUInt32BE_length]; omega) (by omega)]
            omega
      | none =>
          have hma : m ≠ a := by
            intro h
            rw [h, hsa] at hm
            exact Option.noConfusion hm
          have hsum : allocSizeSum s a (m - a) =
              allocSizeSum s (a + 1) (m - (a + 1)) := by
            have h1 : m - a = (m - (a + 1)) + 1 := by omega
            rw [h1, allocSizeSum_succ, blockSectors, hsa]
            simp
          rw [ih (a + 1) buf cur (by omega) (by omega) (by omega) (by omega)]
          omega

/-! ## Claim C3: `writeFile` layout and BAT stamping -/

/-- C3: `writeFile` emits, in order, the footer, the dynamic-disk header,
the BAT, each allocated block in ascending index order, and a trailing
footer that is the very same footer value as the leading one (the source
writes the same packed buffer twice).  In the emitted BAT, each never-written
index still reads as the `0xFFFFFFFF` sentinel, and each allocated index `i`
reads back (big-endian) the cursor value `startOffset` plus the sum of the
sector-rounded sizes of the allocated blocks below `i` — the ascending
stamping walk. -/
theorem C3_writeFile_layout (v : VHDFile)
    (hff : ∀ k, k < v.sparseFile.batBuffer.length →
      v.sparseFile.batBuffer.getD k 0 = 0xff)
    (hlen : 4 * v.sparseFile.entryCount ≤ v.sparseFile.batBuffer.length)
    (hbound : v.sparseFile.startOffset +
      allocSizeSum v.sparseFile 0 v.sparseFile.entryCount < 2 ^ 32) :
    v.writeFile =
      FileChunk.footer (createFooter v.actualSize v.timestamp v.geomtry
          HARD_DISK_TYPE_DYNAMIC (some fuFooterSize)) ::
        FileChunk.header (createDynamicDiskHeader v.sparseFile.entryCount
          v.blockSize) ::
        FileChunk.bat (stampLoop v.sparseFile (List.range v.sparseFile.entryCount)
          (v.sparseFile.batBuffer, v.sparseFile.startOffset)).1 ::
        (((List.range v.sparseFile.entryCount).filterMap fun i =>
            (v.sparseFile.entries i).map FileChunk.block) ++
          [FileChunk.footer (createFooter v.actualSize v.timestamp v.geomtry
            HARD_DISK_TYPE_DYNAMIC (some fuFooterSize))]) ∧
      (∀ i, i < v.sparseFile.entryCount → v.sparseFile.entries i = none →
        readUInt32BE (stampLoop v.sparseFile (List.range v.sparseFile.entryCount)
          (v.sparseFile.batBuffer, v.sparseFile.startOffset)).1 (i * 4) =
          0xFFFFFFFF) ∧
      (∀ i b, i < v.sparseFile.entryCount → v.sparseFile.entries i = some b →
        readUInt32BE (stampLoop v.sparseFile (List.range v.sparseFile.entryCount)
          (v.sparseFile.batBuffer, v.sparseFile.startOffset)).1 (i * 4) =
          v.sparseFile.startOffset + allocSizeSum v.sparseFile 0 i) := by
  refine ⟨rfl, ?_, ?_⟩
  · intro i hi hnone
    rw [List.range_eq_range']
    have huntouched : ∀ t, t < 4 →
        (stampLoop v.sparseFile (List.range' 0 v.sparseFile.entryCount)
          (v.sparseFile.batBuffer, v.sparseFile.startOffset)).1[i * 4 + t]? =
          v.sparseFile.batBuffer[i * 4 + t]? := by
      intro t ht
      apply stampLoop_untouched
      intro j hj hjs
      by_cases hji : j = i
      · subst hji
        rw [hnone] at hjs
        exact absurd hjs (by simp)
      · omega
    rw [readUInt32BE_congr _ _ _ huntouched]
    exact readUInt32BE_all_ff _ _ hff (by omega)
  · intro i b hi hsome
    rw [List.range_eq_range']
    have hle : allocSizeSum v.sparseFile 0 i ≤
        allocSizeSum v.sparseFile 0 v.sparseFile.entryCount := by
      have h1 : v.sparseFile.entryCount = i + (v.sparseFile.entryCount - i) := by
        omega
      rw [h1, allocSizeSum_add]
      omega
    have hbnd : v.sparseFile.startOffset +
        allocSizeSum v.sparseFile 0 (i - 0) < 2 ^ 32 := by
      rw [Nat.sub_zero]
      omega
    have hread := stampLoop_read v.sparseFile i b hsome v.sparseFile.entryCount 0
      v.sparseFile.batBuffer v.sparseFile.startOffset (Nat.zero_le i) (by omega)
      (by omega) hbnd
    rw [Nat.sub_zero] at hread
    exact hread

set_option maxRecDepth 10000 in
/-- C3 witness: the concrete two-entry `testVhdFile`. -/
theorem C3_writeFile_layout_witness :
    (∀ k, k < testVhdFile.sparseFile.batBuffer.length →
        testVhdFile.sparseFile.batBuffer.getD k 0 = 0xff) ∧
      (testVhdFile.writeFile =
        FileChunk.footer (createFooter testVhdFile.actualSize testVhdFile.timestamp
            testVhdFile.geomtry HARD_DISK_TYPE_DYNAMIC (some fuFooterSize)) ::
          FileChunk.header (createDynamicDiskHeader
            testVhdFile.sparseFile.entryCount testVhdFile.blockSize) ::
          FileChunk.bat (stampLoop testVhdFile.sparseFile
            (List.range testVhdFile.sparseFile.entryCount)
            (testVhdFile.sparseFile.batBuffer,
              testVhdFile.sparseFile.startOffset)).1 ::
          (((List.range testVhdFile.sparseFile.entryCount).filterMap fun i =>
              (testVhdFile.sparseFile.entries i).map FileChunk.block) ++
            [FileChunk.footer (createFooter testVhdFile.actualSize
              testVhdFile.timestamp testVhdFile.geomtry HARD_DISK_TYPE_DYNAMIC
              (some fuFooterSize))]) ∧
        (∀ i, i < testVhdFile.sparseFile.entryCount →
          testVhdFile.sparseFile.entries i = none →
          readUInt32BE (stampLoop testVhdFile.sparseFile
            (List.range testVhdFile.sparseFile.entryCount)
            (testVhdFile.sparseFile.batBuffer,
              testVhdFile.sparseFile.startOffset)).1 (i * 4) = 0xFFFFFFFF) ∧
        (∀ i b, i < testVhdFile.sparseFile.entryCount →
          testVhdFile.sparseFile.entries i = some b →
          readUInt32BE (stampLoop testVhdFile.sparseFile
            (List.range testVhdFile.sparseFile.entryCount)
            (testVhdFile.sparseFile.batBuffer,
              testVhdFile.sparseFile.startOffset)).1 (i * 4) =
            testVhdFile.sparseFile.startOffset +
              allocSizeSum testVhdFile.sparseFile 0 i)) :=
  ⟨by decide,
    C3_writeFile_layout testVhdFile (by decide) (by decide) (by decide)⟩

/-! ## Claim C10: writes past the virtual capacity never reach the file -/

theorem stampLoop_congr (s₁ s₂ : SparseExtent) :
    ∀ (l : List Nat), (∀ i ∈ l, s₁.entries i = s₂.entries i) →
      ∀ buf cur, stampLoop s₁ l (buf, cur) = stampLoop s₂ l (buf, cur)
  | [], _, _, _ => rfl
  | i :: rest, he, buf, cur => by
      rw [stampLoop, stampLoop, he i (List.mem_cons_self i rest)]
      cases s₂.entries i with
      | none =>
          exact stampLoop_congr s₁ s₂ rest
            (fun j hj => he j (List.mem_cons_of_mem i hj)) buf cur
      | some b =>
          exact stampLoop_congr s₁ s₂ rest
            (fun j hj => he j (List.mem_cons_of_mem i hj)) _ _

theorem writeOnFile_congr (s₁ s₂ : SparseExtent)
    (h1 : s₁.entryCount = s₂.entryCount) (h2 : s₁.batBuffer = s₂.batBuffer)
    (h3 : s₁.startOffset = s₂.startOffset)
    (he : ∀ i, i < s₂.entryCount → s₁.entries i = s₂.entries i) :
    s₁.writeOnFile = s₂.writeOnFile := by
  simp only [SparseExtent.writeOnFile, h1, h2, h3]
  rw [stampLoop_congr s₁ s₂ (List.range s₂.entryCount)
    (fun i hi => he i (List.mem_range.mp hi)),
    List.filterMap_congr
      (fun i hi => by rw [he i (List.mem_range.mp hi)])]

/-- C10: a `writeBuffer` whose byte range lies entirely at or beyond
`entryCount * blockSize` succeeds, allocates in-memory blocks only at
indices `≥ entryCount` (entries below `entryCount` are untouched, every
changed index is `≥ entryCount`, and a nonempty buffer does allocate its
first touched block at index `offset / blockSize ≥ entryCount`), and leaves
the output of `writeFile` — BAT stamping walk and block serialization both
iterate only indices below `entryCount` — unchanged. -/
theorem C10_write_past_capacity (v : VHDFile) (buffer : List Nat) (offset : Nat)
    (hbs : 0 < v.sparseFile.blockSize)
    (hoff : v.sparseFile.entryCount * v.sparseFile.blockSize ≤ offset) :
    ∃ v', v.writeBuffer buffer offset = .ok v' ∧
      (∀ j, j < v.sparseFile.entryCount →
        v'.sparseFile.entries j = v.sparseFile.entries j) ∧
      (∀ j, v'.sparseFile.entries j ≠ v.sparseFile.entries j →
        v.sparseFile.entryCount ≤ j) ∧
      (buffer ≠ [] →
        v.sparseFile.entryCount ≤ offset / v.sparseFile.blockSize ∧
        (v'.sparseFile.entries (offset / v.sparseFile.blockSize)).isSome = true) ∧
      v'.writeFile = v.writeFile := by
  have hstart : v.sparseFile.entryCount ≤ offset / v.sparseFile.blockSize :=
    (Nat.le_div_iff_mul_le hbs).mpr hoff
  obtain ⟨s', hloop, hec, hbb, hsb', hso, hent⟩ :=
    writeBufferLoop_spec buffer offset v.sparseFile.blockSize hbs
      ((offset + buffer.length + (v.sparseFile.blockSize - 1)) /
          v.sparseFile.blockSize - offset / v.sparseFile.blockSize)
      (offset / v.sparseFile.blockSize) v.sparseFile rfl (le_refl _)
  have heb : offset / v.sparseFile.blockSize ≤
      (offset + buffer.length + (v.sparseFile.blockSize - 1)) /
        v.sparseFile.blockSize :=
    Nat.div_le_div_right (by omega)
  refine ⟨{ v with sparseFile := s' }, ?_, ?_, ?_, ?_, ?_⟩
  · simp only [VHDFile.writeBuffer, SparseExtent.writeBuffer]
    rw [hloop]
    rfl
  · intro j hj
    rw [hent j, if_neg (by omega)]
  · intro j hne
    by_contra hlt
    exact hne (by rw [hent j, if_neg (by omega)])
  · intro hnil
    have hlen : 0 < buffer.length := List.length_pos.mpr hnil
    have hlt : offset / v.sparseFile.blockSize <
        (offset + buffer.length + (v.sparseFile.blockSize - 1)) /
          v.sparseFile.blockSize := by
      have h1 : (offset + v.sparseFile.blockSize) / v.sparseFile.blockSize =
          offset / v.sparseFile.blockSize + 1 := Nat.add_div_right offset hbs
      have h2 : (offset + v.sparseFile.blockSize) / v.sparseFile.blockSize ≤
          (offset + buffer.length + (v.sparseFile.blockSize - 1)) /
            v.sparseFile.blockSize :=
        Nat.div_le_div_right (by omega)
      omega
    refine ⟨hstart, ?_⟩
    rw [hent _, if_pos (by omega)]
    rfl
  · have hwof : s'.writeOnFile = v.sparseFile.writeOnFile :=
      writeOnFile_congr s' v.sparseFile hec hbb hso
        (fun i hi => by rw [hent i, if_neg (by omega)])
    simp only [VHDFile.writeFile]
    rw [hec, hwof]

/-- C10 witness: one byte written exactly at the capacity boundary of
`testVhdFile` (entry count 2, block size 1024, capacity 2048). -/
theorem C10_write_past_capacity_witness :
    testVhdFile.sparseFile.entryCount * testVhdFile.sparseFile.blockSize ≤ 2048 ∧
      ∃ v', testVhdFile.writeBuffer [5] 2048 = .ok v' ∧
        (∀ j, j < testVhdFile.sparseFile.entryCount →
          v'.sparseFile.entries j = testVhdFile.sparseFile.entries j) ∧
        (∀ j, v'.sparseFile.entries j ≠ testVhdFile.sparseFile.entries j →
          testVhdFile.sparseFile.entryCount ≤ j) ∧
        (([5] : List Nat) ≠ [] →
          testVhdFile.sparseFile.entryCount ≤
            2048 / testVhdFile.sparseFile.blockSize ∧
          (v'.sparseFile.entries
            (2048 / testVhdFile.sparseFile.blockSize)).isSome = true) ∧
        v'.writeFile = testVhdFile.writeFile :=
  ⟨by decide, C10_write_past_capacity testVhdFile [5] 2048 (by decide) (by decide)⟩
